import Mathlib

/-!
Shallow embedding of the typed component registry of quackcraft
(`src/engine/src/component/mod.rs` and `src/engine/src/component/resource.rs`).

Rust features are modelled explicitly:

* `TypeId::of::<T>()` / `type_name::<T>()` — a `Ty` record carrying a numeric
  type identity and a display name; distinct static types have distinct ids.
* `RefCell<Box<dyn Any>>` — a `BorrowState` flag per `ResourceNode` together
  with an erased payload tagged by the id of its dynamic type.  `borrow` /
  `borrow_mut` / guard drops follow `RefCell` semantics; a conflicting borrow
  is a panic, modelled as `Except.error` carrying the panic message.
* `Rc<ResourceMap>` — each registry allocates exactly one slot map; the state
  records the allocation address (`mapAddr`), its contents (`slots`) and the
  strong count of the `Rc` (`rcCount`).  `Rc::get_mut` succeeds exactly when
  the strong count is 1.  Cloning the `Rc` bumps the count.
* `OnceCell<ComponentStore>` (the `public_ref` cell) — `publicRef : Option Nat`
  holding, once set, the map address of the published registry copy; a second
  `set` is ignored and its argument (a fresh `Rc` clone) is dropped, leaving
  the count unchanged, exactly as `let _ = self.public_ref.set(...)` does.
* panics — `Except String` with the literal panic / expect messages.
-/

namespace Quackcraft

/-- Model of a Rust static type as seen by the registry: `TypeId` (a stable
numeric identity, injective across distinct types) and `type_name`. -/
structure Ty where
  id : Nat
  name : String
deriving DecidableEq, Repr

/-- The borrow flag of a `RefCell`: unused, `n + 1` live shared borrows, or
one live exclusive borrow. -/
inductive BorrowState where
  | free : BorrowState
  | reading (n : Nat) : BorrowState
  | writing : BorrowState
deriving DecidableEq, Repr

/-- Rust `ResourceNode` from `resource.rs`: the debug type name, and
`data : RefCell<Box<dyn Any>>` modelled as the dynamic type id of the boxed
value, the erased payload, and the borrow flag of the cell. -/
structure ResourceNode where
  type_name : String
  dataTy : Nat
  data : Nat
  borrow : BorrowState
deriving DecidableEq, Repr

/-- Rust `ResourceNode::new::<T>(data)`. -/
def ResourceNode.new (ty : Ty) (v : Nat) : ResourceNode :=
  { type_name := ty.name, dataTy := ty.id, data := v, borrow := .free }

/-- Rust `RefCell::borrow`: panics if an exclusive borrow is live. -/
def ResourceNode.tryBorrow (n : ResourceNode) : Except String ResourceNode :=
  match n.borrow with
  | .writing => .error "already mutably borrowed: BorrowError"
  | .free => .ok { n with borrow := .reading 0 }
  | .reading k => .ok { n with borrow := .reading (k + 1) }

/-- Rust `RefCell::borrow_mut`: panics if any borrow is live. -/
def ResourceNode.tryBorrowMut (n : ResourceNode) : Except String ResourceNode :=
  match n.borrow with
  | .free => .ok { n with borrow := .writing }
  | _ => .error "already borrowed: BorrowMutError"

/-- Dropping a shared guard (`Ref`): decrement the reader count. -/
def ResourceNode.dropRef (n : ResourceNode) : ResourceNode :=
  { n with
    borrow :=
      match n.borrow with
      | .reading 0 => .free
      | .reading (k + 1) => .reading k
      | b => b }

/-- Dropping an exclusive guard (`RefMut`): clear the writer flag. -/
def ResourceNode.dropRefMut (n : ResourceNode) : ResourceNode :=
  { n with borrow := match n.borrow with | .writing => .free | b => b }

/-- Rust `ResourceNode::downcast_ref_unchecked::<T>`: take a shared borrow of the
cell, then `downcast_ref::<T>().expect(..)` on the boxed value.  Returns the
payload and the node with its borrow flag advanced. -/
def ResourceNode.downcast_ref_unchecked (n : ResourceNode) (ty : Ty) :
    Except String (Nat × ResourceNode) :=
  match n.tryBorrow with
  | .error e => .error e
  | .ok n1 =>
    if n1.dataTy = ty.id then .ok (n1.data, n1)
    else .error "Resource type mismatch during downcast"

/-- Rust `ResourceNode::downcast_mut_unchecked::<T>`: exclusive borrow, then
`downcast_mut::<T>().expect(..)`. -/
def ResourceNode.downcast_mut_unchecked (n : ResourceNode) (ty : Ty) :
    Except String (Nat × ResourceNode) :=
  match n.tryBorrowMut with
  | .error e => .error e
  | .ok n1 =>
    if n1.dataTy = ty.id then .ok (n1.data, n1)
    else .error "Resource type mismatch during downcast"

/-- Rust `ResourceMap = HashMap<TypeId, ResourceNode>` as an association list with
unique keys (hashing is irrelevant to the contract). -/
abbrev ResourceMap := List (Nat × ResourceNode)

/-- Rust `HashMap::get(&k)`. -/
def ResourceMap.lookup : ResourceMap → Nat → Option ResourceNode
  | [], _ => none
  | (k, n) :: rest, key => if k = key then some n else ResourceMap.lookup rest key

/-- Rust `HashMap::contains_key(&k)`. -/
def ResourceMap.containsKey (m : ResourceMap) (key : Nat) : Bool :=
  (m.lookup key).isSome

/-- Rust `HashMap::insert(k, n)` specialised to a key known to be absent. -/
def ResourceMap.insertNode (m : ResourceMap) (key : Nat) (n : ResourceNode) :
    ResourceMap :=
  (key, n) :: m

/-- Write back a node whose borrow flag advanced (the map entry a live guard
points at). -/
def ResourceMap.updateNode : ResourceMap → Nat → ResourceNode → ResourceMap
  | [], _, _ => []
  | (k, n) :: rest, key, n1 =>
    if k = key then (key, n1) :: ResourceMap.updateNode rest key n1
    else (k, n) :: ResourceMap.updateNode rest key n1

/-- Rust `ComponentStore`: `map : Rc<ResourceMap>` (address, contents, strong
count) and `public_ref : Rc<OnceCell<ComponentStore>>` (the cell contents;
once set it holds a registry copy sharing the same map, recorded by that
map address of that copy). -/
structure ComponentStore where
  mapAddr : Nat
  slots : ResourceMap
  rcCount : Nat
  publicRef : Option Nat
deriving DecidableEq, Repr

/-- Rust `ComponentStore::new()`: empty map, exclusively owned, cell empty. -/
def ComponentStore.new : ComponentStore :=
  { mapAddr := 0, slots := [], rcCount := 1, publicRef := none }

/-- Rust `ComponentStore::finish_initialization`: `public_ref.set(Self { map:
self.map.clone(), .. })`, result ignored.  First call stores a clone of the
map `Rc` in the cell (count bumps); a later call fails to set and drops its
clone, leaving everything unchanged. -/
def ComponentStore.finish_initialization (s : ComponentStore) : ComponentStore :=
  match s.publicRef with
  | some _ => s
  | none => { s with publicRef := some s.mapAddr, rcCount := s.rcCount + 1 }

/-- Dereference a map address: each registry owns exactly one allocation. -/
def ComponentStore.heapAt (s : ComponentStore) (a : Nat) : Option ResourceMap :=
  if a = s.mapAddr then some s.slots else none

/-- Write the map at an address back (only the single allocation exists). -/
def ComponentStore.heapWrite (s : ComponentStore) (a : Nat) (m : ResourceMap) :
    ComponentStore :=
  if a = s.mapAddr then { s with slots := m } else s

/-- Rust `ComponentStoreHandle`: `handle : OnceCell<Rc<ResourceMap>>` (the cached
map address once resolved) plus `global_handle`, a clone of the registry
`public_ref` cell (implicit: one registry per state). -/
structure ComponentStoreHandle where
  cache : Option Nat
deriving DecidableEq, Repr

/-- Rust `ComponentStoreHandle::new`: empty cache; only the `public_ref` `Rc` is
cloned, never the map `Rc`. -/
def ComponentStoreHandle.new : ComponentStoreHandle :=
  { cache := none }

/-- Rust `ComponentStore::handle()`. -/
def ComponentStore.handle (_s : ComponentStore) : ComponentStoreHandle :=
  ComponentStoreHandle.new

/-- Rust `ComponentHandle<T>`: a `ComponentStoreHandle` plus the phantom type. -/
structure ComponentHandle where
  ty : Ty
  handle : ComponentStoreHandle
deriving DecidableEq, Repr

/-- Rust `ComponentStore::handle_for::<T>()`. -/
def ComponentStore.handle_for (s : ComponentStore) (ty : Ty) : ComponentHandle :=
  { ty := ty, handle := s.handle }

/-- Rust `Clone for ComponentStoreHandle` (derived): cloning a resolved handle
clones the cached map `Rc`, bumping the strong count; cloning an unresolved
handle clones only the cell reference. -/
def ComponentStoreHandle.clone (h : ComponentStoreHandle) (s : ComponentStore) :
    ComponentStoreHandle × ComponentStore :=
  match h.cache with
  | some _ => (h, { s with rcCount := s.rcCount + 1 })
  | none => (h, s)

/-- Rust `ComponentStore::insert::<T>(component)`: panic on a duplicate type, then
`Rc::get_mut(&mut self.map).expect(..)` — fails unless the map `Rc` is
exclusively owned — then insert the node and return `handle_for::<T>()`. -/
def ComponentStore.insert (s : ComponentStore) (ty : Ty) (v : Nat) :
    Except String (ComponentHandle × ComponentStore) :=
  if s.slots.containsKey ty.id then
    .error ("Component of type " ++ ty.name ++ " already exists in State")
  else if s.rcCount ≠ 1 then
    .error "Cannot insert component into shared State"
  else
    let s1 := { s with slots := s.slots.insertNode ty.id (ResourceNode.new ty v) }
    .ok (s1.handle_for ty, s1)

/-- Rust `ComponentStoreHandle::get_map`: return the cached map if resolved;
otherwise read the `public_ref` cell — panicking if it is still empty — and
cache a clone of the map `Rc` of the published registry. -/
def ComponentStoreHandle.get_map (h : ComponentStoreHandle) (s : ComponentStore) :
    Except String (Nat × ComponentStoreHandle × ComponentStore) :=
  match h.cache with
  | some a => .ok (a, h, s)
  | none =>
    match s.publicRef with
    | none => .error "StateHandle used before State was fully initialized"
    | some a => .ok (a, { cache := some a }, { s with rcCount := s.rcCount + 1 })

/-- Rust `ComponentStore::get_checked::<T>` (the `impl_get!` body against the
own map of the registry): look the type up, `downcast_ref_unchecked` on a hit. -/
def ComponentStore.get_checked (s : ComponentStore) (ty : Ty) :
    Except String (Option (Nat × ComponentStore)) :=
  match s.slots.lookup ty.id with
  | none => .ok none
  | some node =>
    match node.downcast_ref_unchecked ty with
    | .error e => .error e
    | .ok (v, node1) =>
      .ok (some (v, { s with slots := s.slots.updateNode ty.id node1 }))

/-- Rust `ComponentStore::get::<T>`: panic, naming the type, when absent. -/
def ComponentStore.get (s : ComponentStore) (ty : Ty) :
    Except String (Nat × ComponentStore) :=
  match s.get_checked ty with
  | .error e => .error e
  | .ok none => .error ("Component " ++ ty.name ++ " not found in ComponentDB")
  | .ok (some r) => .ok r

/-- Rust `ComponentStore::get_mut_checked::<T>`. -/
def ComponentStore.get_mut_checked (s : ComponentStore) (ty : Ty) :
    Except String (Option (Nat × ComponentStore)) :=
  match s.slots.lookup ty.id with
  | none => .ok none
  | some node =>
    match node.downcast_mut_unchecked ty with
    | .error e => .error e
    | .ok (v, node1) =>
      .ok (some (v, { s with slots := s.slots.updateNode ty.id node1 }))

/-- Rust `ComponentStore::get_mut::<T>`. -/
def ComponentStore.get_mut (s : ComponentStore) (ty : Ty) :
    Except String (Nat × ComponentStore) :=
  match s.get_mut_checked ty with
  | .error e => .error e
  | .ok none => .error ("Component " ++ ty.name ++ " not found in ComponentDB")
  | .ok (some r) => .ok r

/-- Rust `ComponentStoreHandle::get_checked::<T>`: resolve via `get_map`, then the
same lookup/downcast against the resolved map. -/
def ComponentStoreHandle.get_checked (h : ComponentStoreHandle)
    (s : ComponentStore) (ty : Ty) :
    Except String (Option (Nat × ComponentStoreHandle × ComponentStore)) :=
  match h.get_map s with
  | .error e => .error e
  | .ok (a, h1, s1) =>
    match s1.heapAt a with
    | none => .error "invalid resource map address"
    | some m =>
      match m.lookup ty.id with
      | none => .ok none
      | some node =>
        match node.downcast_ref_unchecked ty with
        | .error e => .error e
        | .ok (v, node1) =>
          .ok (some (v, h1, s1.heapWrite a (m.updateNode ty.id node1)))

/-- Rust `ComponentStoreHandle::get::<T>`. -/
def ComponentStoreHandle.get (h : ComponentStoreHandle) (s : ComponentStore)
    (ty : Ty) : Except String (Nat × ComponentStoreHandle × ComponentStore) :=
  match h.get_checked s ty with
  | .error e => .error e
  | .ok none => .error ("Component " ++ ty.name ++ " not found in ComponentDB")
  | .ok (some r) => .ok r

/-- Rust `ComponentStoreHandle::get_mut_checked::<T>`. -/
def ComponentStoreHandle.get_mut_checked (h : ComponentStoreHandle)
    (s : ComponentStore) (ty : Ty) :
    Except String (Option (Nat × ComponentStoreHandle × ComponentStore)) :=
  match h.get_map s with
  | .error e => .error e
  | .ok (a, h1, s1) =>
    match s1.heapAt a with
    | none => .error "invalid resource map address"
    | some m =>
      match m.lookup ty.id with
      | none => .ok none
      | some node =>
        match node.downcast_mut_unchecked ty with
        | .error e => .error e
        | .ok (v, node1) =>
          .ok (some (v, h1, s1.heapWrite a (m.updateNode ty.id node1)))

/-- Rust `ComponentStoreHandle::get_mut::<T>`. -/
def ComponentStoreHandle.get_mut (h : ComponentStoreHandle) (s : ComponentStore)
    (ty : Ty) : Except String (Nat × ComponentStoreHandle × ComponentStore) :=
  match h.get_mut_checked s ty with
  | .error e => .error e
  | .ok none => .error ("Component " ++ ty.name ++ " not found in ComponentDB")
  | .ok (some r) => .ok r

/-- Release a shared guard obtained from the slot of type key `key`. -/
def ComponentStore.dropRefAt (s : ComponentStore) (key : Nat) : ComponentStore :=
  match s.slots.lookup key with
  | none => s
  | some node => { s with slots := s.slots.updateNode key node.dropRef }

/-- Release an exclusive guard obtained from the slot of type key `key`. -/
def ComponentStore.dropRefMutAt (s : ComponentStore) (key : Nat) : ComponentStore :=
  match s.slots.lookup key with
  | none => s
  | some node => { s with slots := s.slots.updateNode key node.dropRefMut }

/-- Assign through a live `RefMut` guard (`*guard = w`): overwrite the payload
of the slot of type key `key`. -/
def ComponentStore.writeThrough (s : ComponentStore) (key : Nat) (w : Nat) :
    ComponentStore :=
  match s.slots.lookup key with
  | none => s
  | some node => { s with slots := s.slots.updateNode key { node with data := w } }

/-! ### Traces

Client programs are sequences of registry operations starting from
`ComponentStore.new()`.  A panic anywhere aborts the program, so a state is
reachable when some trace runs to completion and produces it. -/

/-- One client-visible registry operation.  Typed-handle calls
(`ComponentHandle<T>::get` etc.) delegate to the untyped handle, so traces
use the untyped handle with an explicit type argument.  Borrow guards taken
by the `get` operations are dropped at the end of the operation (the
`let _ = ...;` pattern). -/
inductive Op where
  | insertOp (ty : Ty) (v : Nat)
  | handleOp
  | handleForOp (ty : Ty)
  | cloneOp (i : Nat)
  | finishOp
  | getOp (ty : Ty)
  | getMutOp (ty : Ty)
  | handleGetOp (i : Nat) (ty : Ty)
deriving DecidableEq, Repr

/-- A trace state: the registry plus every handle the trace has created
(`insert` and `handle_for` both create one; `clone` duplicates one). -/
structure TraceState where
  store : ComponentStore
  handles : List ComponentStoreHandle
deriving DecidableEq, Repr

/-- The initial trace state: `ComponentStore::new()`, no handles. -/
def TraceState.init : TraceState :=
  { store := ComponentStore.new, handles := [] }

/-- Replace the handle at index `i`. -/
def TraceState.setHandle (st : TraceState) (i : Nat) (h : ComponentStoreHandle) :
    TraceState :=
  { st with handles := st.handles.set i h }

/-- Execute one operation; a panic aborts the trace. -/
def step (st : TraceState) (op : Op) : Except String TraceState :=
  match op with
  | .insertOp ty v =>
    match st.store.insert ty v with
    | .error e => .error e
    | .ok (ch, s1) => .ok { store := s1, handles := st.handles ++ [ch.handle] }
  | .handleOp =>
    .ok { st with handles := st.handles ++ [st.store.handle] }
  | .handleForOp ty =>
    .ok { st with handles := st.handles ++ [(st.store.handle_for ty).handle] }
  | .cloneOp i =>
    match st.handles.get? i with
    | none => .error "invalid handle index"
    | some h =>
      let (h1, s1) := h.clone st.store
      .ok { store := s1, handles := st.handles ++ [h1] }
  | .finishOp =>
    .ok { st with store := st.store.finish_initialization }
  | .getOp ty =>
    match st.store.get ty with
    | .error e => .error e
    | .ok (_, s1) => .ok { st with store := s1.dropRefAt ty.id }
  | .getMutOp ty =>
    match st.store.get_mut ty with
    | .error e => .error e
    | .ok (_, s1) => .ok { st with store := s1.dropRefMutAt ty.id }
  | .handleGetOp i ty =>
    match st.handles.get? i with
    | none => .error "invalid handle index"
    | some h =>
      match h.get st.store ty with
      | .error e => .error e
      | .ok (_, h1, s1) =>
        .ok { store := s1.dropRefAt ty.id, handles := st.handles.set i h1 }

/-- Run a list of operations from a given state; a panic aborts the rest. -/
def runFrom : TraceState → List Op → Except String TraceState
  | st, [] => .ok st
  | st, op :: rest =>
    match step st op with
    | .error e => .error e
    | .ok st1 => runFrom st1 rest

/-- Run a trace from the initial state. -/
def run (ops : List Op) : Except String TraceState :=
  runFrom TraceState.init ops

/-- Every slot stores a value whose dynamic type id equals its key — the
"lookup key implies stored type" invariant the unchecked downcasts rely on. -/
def wellTyped (m : ResourceMap) : Prop :=
  ∀ p ∈ m, (p : Nat × ResourceNode).2.dataTy = p.1

/-- The reachability invariant tying `Rc` sharing to `finish`:
the map `Rc` is exclusively owned exactly until `finish_initialization`
publishes a clone; handles can only cache the (published) map address; every
slot stores a value whose dynamic type matches its key. -/
def Inv (st : TraceState) : Prop :=
  (st.store.publicRef = none ∨ st.store.publicRef = some st.store.mapAddr) ∧
  (st.store.publicRef = none → st.store.rcCount = 1) ∧
  (∀ h ∈ st.handles, h.cache = none ∨
    (h.cache = some st.store.mapAddr ∧ st.store.publicRef ≠ none)) ∧
  wellTyped st.store.slots

/-! ### Basic lemmas about the slot map -/

theorem ResourceMap.lookup_mem {m : ResourceMap} {k : Nat} {n : ResourceNode}
    (h : m.lookup k = some n) : (k, n) ∈ m := by
  induction m with
  | nil => simp [ResourceMap.lookup] at h
  | cons p rest ih =>
    obtain ⟨k1, n1⟩ := p
    by_cases hk : k1 = k
    · subst hk
      simp [ResourceMap.lookup] at h
      subst h
      exact List.mem_cons_self _ _
    · simp [ResourceMap.lookup, hk] at h
      exact List.mem_cons_of_mem _ (ih h)

theorem wellTyped_updateNode {key : Nat} {n1 : ResourceNode} {m : ResourceMap}
    (hty : n1.dataTy = key) (hm : wellTyped m) :
    wellTyped (m.updateNode key n1) := by
  induction m with
  | nil =>
    intro p hp
    simp [ResourceMap.updateNode] at hp
  | cons p rest ih =>
    obtain ⟨k1, q⟩ := p
    have hrest : wellTyped rest := fun r hr => hm r (List.mem_cons_of_mem _ hr)
    intro r hr
    by_cases hk : k1 = key
    · subst hk
      simp only [ResourceMap.updateNode, if_true, eq_self_iff_true,
        List.mem_cons] at hr
      rcases hr with hr | hr
      · subst hr; exact hty
      · exact ih hrest r hr
    · simp only [ResourceMap.updateNode, if_neg hk, List.mem_cons] at hr
      rcases hr with hr | hr
      · subst hr; exact hm (k1, q) (List.mem_cons_self _ _)
      · exact ih hrest r hr

theorem lookup_updateNode_self {m : ResourceMap} {key : Nat}
    {n n1 : ResourceNode} (h : m.lookup key = some n) :
    (m.updateNode key n1).lookup key = some n1 := by
  induction m with
  | nil => simp [ResourceMap.lookup] at h
  | cons p rest ih =>
    obtain ⟨k1, q⟩ := p
    by_cases hk : k1 = key
    · subst hk
      simp [ResourceMap.lookup, ResourceMap.updateNode]
    · simp only [ResourceMap.lookup, hk, if_false, if_neg hk] at h
      simp only [ResourceMap.updateNode, if_neg hk, ResourceMap.lookup, if_neg hk]
      exact ih h

theorem lookup_updateNode_other {m : ResourceMap} {key k : Nat}
    {n1 : ResourceNode} (hne : k ≠ key) :
    (m.updateNode key n1).lookup k = m.lookup k := by
  induction m with
  | nil => simp [ResourceMap.lookup, ResourceMap.updateNode]
  | cons p rest ih =>
    obtain ⟨k1, q⟩ := p
    by_cases hk : k1 = key
    · subst hk
      simp only [ResourceMap.updateNode, if_pos rfl, ResourceMap.lookup,
        if_neg (Ne.symm hne)]
      exact ih
    · simp only [ResourceMap.updateNode, if_neg hk, ResourceMap.lookup]
      by_cases hk2 : k1 = k
      · simp [hk2]
      · simp only [if_neg hk2]
        exact ih

/-! ### Characterising the downcasts -/

theorem downcast_ref_ok {n n1 : ResourceNode} {ty : Ty} {v : Nat}
    (h : n.downcast_ref_unchecked ty = .ok (v, n1)) :
    v = n.data ∧ n1.dataTy = n.dataTy ∧ n1.data = n.data ∧
      n.dataTy = ty.id ∧
      ((n.borrow = .free ∧ n1.borrow = .reading 0) ∨
        (∃ k, n.borrow = .reading k ∧ n1.borrow = .reading (k + 1))) := by
  unfold ResourceNode.downcast_ref_unchecked ResourceNode.tryBorrow at h
  rcases hb : n.borrow with _ | k | _ <;> rw [hb] at h
  · by_cases hd : n.dataTy = ty.id <;> simp [hd] at h
    obtain ⟨hv, hn⟩ := h
    subst hn
    exact ⟨hv.symm, by simp [hd], rfl, hd, Or.inl ⟨rfl, rfl⟩⟩
  · by_cases hd : n.dataTy = ty.id <;> simp [hd] at h
    obtain ⟨hv, hn⟩ := h
    subst hn
    exact ⟨hv.symm, by simp [hd], rfl, hd, Or.inr ⟨k, rfl, rfl⟩⟩
  · simp at h

theorem downcast_mut_ok {n n1 : ResourceNode} {ty : Ty} {v : Nat}
    (h : n.downcast_mut_unchecked ty = .ok (v, n1)) :
    v = n.data ∧ n1.dataTy = n.dataTy ∧ n1.data = n.data ∧
      n.dataTy = ty.id ∧ n.borrow = .free ∧ n1.borrow = .writing := by
  unfold ResourceNode.downcast_mut_unchecked ResourceNode.tryBorrowMut at h
  rcases hb : n.borrow with _ | k | _ <;> rw [hb] at h
  · by_cases hd : n.dataTy = ty.id <;> simp [hd] at h
    obtain ⟨hv, hn⟩ := h
    subst hn
    exact ⟨hv.symm, by simp [hd], rfl, hd, rfl, rfl⟩
  · simp at h
  · simp at h

/-! ### Shape lemmas: what each store operation can change -/

theorem get_checked_ok_frame {s s1 : ComponentStore} {ty : Ty} {v : Nat}
    (h : s.get_checked ty = .ok (some (v, s1))) :
    s1.mapAddr = s.mapAddr ∧ s1.rcCount = s.rcCount ∧
      s1.publicRef = s.publicRef ∧ (wellTyped s.slots → wellTyped s1.slots) := by
  unfold ComponentStore.get_checked at h
  cases hl : s.slots.lookup ty.id with
  | none => simp [hl] at h
  | some node =>
    simp only [hl] at h
    cases hd : node.downcast_ref_unchecked ty with
    | error e => simp [hd] at h
    | ok r =>
      obtain ⟨v1, node1⟩ := r
      simp [hd] at h
      obtain ⟨hv, hs⟩ := h
      subst hs
      refine ⟨rfl, rfl, rfl, fun hw => ?_⟩
      have hc := downcast_ref_ok hd
      have hty0 : node.dataTy = ty.id := hw _ (ResourceMap.lookup_mem hl)
      exact wellTyped_updateNode (hc.2.1.trans hty0) hw

theorem get_mut_checked_ok_frame {s s1 : ComponentStore} {ty : Ty} {v : Nat}
    (h : s.get_mut_checked ty = .ok (some (v, s1))) :
    s1.mapAddr = s.mapAddr ∧ s1.rcCount = s.rcCount ∧
      s1.publicRef = s.publicRef ∧ (wellTyped s.slots → wellTyped s1.slots) := by
  unfold ComponentStore.get_mut_checked at h
  cases hl : s.slots.lookup ty.id with
  | none => simp [hl] at h
  | some node =>
    simp only [hl] at h
    cases hd : node.downcast_mut_unchecked ty with
    | error e => simp [hd] at h
    | ok r =>
      obtain ⟨v1, node1⟩ := r
      simp [hd] at h
      obtain ⟨hv, hs⟩ := h
      subst hs
      refine ⟨rfl, rfl, rfl, fun hw => ?_⟩
      have hc := downcast_mut_ok hd
      have hty0 : node.dataTy = ty.id := hw _ (ResourceMap.lookup_mem hl)
      exact wellTyped_updateNode (hc.2.1.trans hty0) hw

theorem get_ok_frame {s s1 : ComponentStore} {ty : Ty} {v : Nat}
    (h : s.get ty = .ok (v, s1)) :
    s1.mapAddr = s.mapAddr ∧ s1.rcCount = s.rcCount ∧
      s1.publicRef = s.publicRef ∧ (wellTyped s.slots → wellTyped s1.slots) := by
  unfold ComponentStore.get at h
  cases hc : s.get_checked ty with
  | error e => simp [hc] at h
  | ok o =>
    cases o with
    | none => simp [hc] at h
    | some r =>
      obtain ⟨v1, s2⟩ := r
      simp [hc] at h
      obtain ⟨hv, hs⟩ := h
      subst hs
      exact get_checked_ok_frame hc

theorem get_mut_ok_frame {s s1 : ComponentStore} {ty : Ty} {v : Nat}
    (h : s.get_mut ty = .ok (v, s1)) :
    s1.mapAddr = s.mapAddr ∧ s1.rcCount = s.rcCount ∧
      s1.publicRef = s.publicRef ∧ (wellTyped s.slots → wellTyped s1.slots) := by
  unfold ComponentStore.get_mut at h
  cases hc : s.get_mut_checked ty with
  | error e => simp [hc] at h
  | ok o =>
    cases o with
    | none => simp [hc] at h
    | some r =>
      obtain ⟨v1, s2⟩ := r
      simp [hc] at h
      obtain ⟨hv, hs⟩ := h
      subst hs
      exact get_mut_checked_ok_frame hc

theorem dropRefAt_frame (s : ComponentStore) (key : Nat) :
    (s.dropRefAt key).mapAddr = s.mapAddr ∧
      (s.dropRefAt key).rcCount = s.rcCount ∧
      (s.dropRefAt key).publicRef = s.publicRef ∧
      (wellTyped s.slots → wellTyped (s.dropRefAt key).slots) := by
  unfold ComponentStore.dropRefAt
  cases hl : s.slots.lookup key with
  | none => exact ⟨rfl, rfl, rfl, fun hw => hw⟩
  | some node =>
    refine ⟨rfl, rfl, rfl, fun hw => ?_⟩
    have hty : node.dataTy = key := hw _ (ResourceMap.lookup_mem hl)
    exact wellTyped_updateNode (by simpa [ResourceNode.dropRef] using hty) hw

theorem dropRefMutAt_frame (s : ComponentStore) (key : Nat) :
    (s.dropRefMutAt key).mapAddr = s.mapAddr ∧
      (s.dropRefMutAt key).rcCount = s.rcCount ∧
      (s.dropRefMutAt key).publicRef = s.publicRef ∧
      (wellTyped s.slots → wellTyped (s.dropRefMutAt key).slots) := by
  unfold ComponentStore.dropRefMutAt
  cases hl : s.slots.lookup key with
  | none => exact ⟨rfl, rfl, rfl, fun hw => hw⟩
  | some node =>
    refine ⟨rfl, rfl, rfl, fun hw => ?_⟩
    have hty : node.dataTy = key := hw _ (ResourceMap.lookup_mem hl)
    exact wellTyped_updateNode (by simpa [ResourceNode.dropRefMut] using hty) hw

theorem writeThrough_frame (s : ComponentStore) (key w : Nat) :
    (s.writeThrough key w).mapAddr = s.mapAddr ∧
      (s.writeThrough key w).rcCount = s.rcCount ∧
      (s.writeThrough key w).publicRef = s.publicRef ∧
      (wellTyped s.slots → wellTyped (s.writeThrough key w).slots) := by
  unfold ComponentStore.writeThrough
  cases hl : s.slots.lookup key with
  | none => exact ⟨rfl, rfl, rfl, fun hw => hw⟩
  | some node =>
    refine ⟨rfl, rfl, rfl, fun hw => ?_⟩
    have hty : node.dataTy = key := hw _ (ResourceMap.lookup_mem hl)
    exact wellTyped_updateNode (by simpa using hty) hw

theorem heapAt_some {s : ComponentStore} {a : Nat} {m : ResourceMap}
    (h : s.heapAt a = some m) : a = s.mapAddr ∧ m = s.slots := by
  unfold ComponentStore.heapAt at h
  by_cases ha : a = s.mapAddr
  · simp [ha] at h
    exact ⟨ha, h.symm⟩
  · simp [ha] at h

theorem insert_ok_shape {s s1 : ComponentStore} {ty : Ty} {v : Nat}
    {ch : ComponentHandle} (h : s.insert ty v = .ok (ch, s1)) :
    s.slots.containsKey ty.id = false ∧ s.rcCount = 1 ∧
      s1.mapAddr = s.mapAddr ∧
      s1.slots = s.slots.insertNode ty.id (ResourceNode.new ty v) ∧
      s1.rcCount = s.rcCount ∧ s1.publicRef = s.publicRef ∧
      ch.handle.cache = none := by
  unfold ComponentStore.insert at h
  by_cases hk : s.slots.containsKey ty.id
  · simp [hk] at h
  · by_cases hrc : s.rcCount = 1
    · rw [if_neg hk, if_neg (not_not_intro hrc)] at h
      cases h
      exact ⟨by simpa using hk, hrc, rfl, rfl, rfl, rfl, rfl⟩
    · rw [if_neg hk, if_pos hrc] at h
      simp at h

theorem get_map_ok_shape {h h1 : ComponentStoreHandle} {s s1 : ComponentStore}
    {a : Nat} (hm : h.get_map s = .ok (a, h1, s1)) :
    h1.cache = some a ∧ s1.mapAddr = s.mapAddr ∧ s1.slots = s.slots ∧
      s1.publicRef = s.publicRef ∧
      ((h.cache = some a ∧ s1 = s) ∨
        (h.cache = none ∧ s.publicRef = some a ∧
          s1.rcCount = s.rcCount + 1)) := by
  unfold ComponentStoreHandle.get_map at hm
  cases hc : h.cache with
  | some b =>
    rw [hc] at hm
    cases hm
    exact ⟨hc, rfl, rfl, rfl, Or.inl ⟨rfl, rfl⟩⟩
  | none =>
    rw [hc] at hm
    cases hp : s.publicRef with
    | none =>
      rw [hp] at hm
      cases hm
    | some b =>
      rw [hp] at hm
      cases hm
      exact ⟨rfl, rfl, rfl, rfl, Or.inr ⟨rfl, rfl, rfl⟩⟩

theorem wellTyped_insertNode {m : ResourceMap} {key : Nat} {n : ResourceNode}
    (hn : n.dataTy = key) (hm : wellTyped m) :
    wellTyped (m.insertNode key n) := by
  intro p hp
  rcases List.mem_cons.mp hp with hp | hp
  · subst hp; exact hn
  · exact hm p hp

theorem heapWrite_fields (s : ComponentStore) (a : Nat) (m : ResourceMap) :
    (s.heapWrite a m).mapAddr = s.mapAddr ∧
      (s.heapWrite a m).rcCount = s.rcCount ∧
      (s.heapWrite a m).publicRef = s.publicRef := by
  unfold ComponentStore.heapWrite
  split <;> simp

theorem heapWrite_slots_pos {s : ComponentStore} {a : Nat} (m : ResourceMap)
    (ha : a = s.mapAddr) : (s.heapWrite a m).slots = m := by
  unfold ComponentStore.heapWrite
  simp [ha]

theorem handle_get_checked_ok_frame {h h1 : ComponentStoreHandle}
    {s s1 : ComponentStore} {ty : Ty} {v : Nat}
    (hg : h.get_checked s ty = .ok (some (v, h1, s1))) :
    s1.mapAddr = s.mapAddr ∧ s1.publicRef = s.publicRef ∧
      (∃ a, h1.cache = some a ∧
        (h.cache = some a ∨ (h.cache = none ∧ s.publicRef = some a))) ∧
      (s.publicRef = none → s1.rcCount = s.rcCount) ∧
      (s1.rcCount = s.rcCount ∨ s1.rcCount = s.rcCount + 1) ∧
      (wellTyped s.slots → wellTyped s1.slots) := by
  unfold ComponentStoreHandle.get_checked at hg
  cases hm : h.get_map s with
  | error e => simp [hm] at hg
  | ok t =>
    obtain ⟨a, h2, s2⟩ := t
    simp only [hm] at hg
    obtain ⟨hcache2, hmap2, hslots2, hpub2, hcase⟩ := get_map_ok_shape hm
    cases hh : s2.heapAt a with
    | none => simp [hh] at hg
    | some m =>
      simp only [hh] at hg
      obtain ⟨ha, hmm⟩ := heapAt_some hh
      cases hl : m.lookup ty.id with
      | none => simp [hl] at hg
      | some node =>
        simp only [hl] at hg
        cases hd : node.downcast_ref_unchecked ty with
        | error e => simp [hd] at hg
        | ok r =>
          obtain ⟨v1, node1⟩ := r
          simp only [hd] at hg
          cases hg
          obtain ⟨hwm, hwr, hwp⟩ := heapWrite_fields s2 a (m.updateNode ty.id node1)
          refine ⟨hwm.trans hmap2, hwp.trans hpub2, ⟨a, hcache2, ?_⟩, ?_, ?_, ?_⟩
          · rcases hcase with ⟨hce, _⟩ | ⟨hce, hpr, _⟩
            · exact Or.inl hce
            · exact Or.inr ⟨hce, hpr⟩
          · intro hnone
            rcases hcase with ⟨_, hs2⟩ | ⟨_, hpr, _⟩
            · rw [hwr, hs2]
            · rw [hnone] at hpr; cases hpr
          · rcases hcase with ⟨_, hs2⟩ | ⟨_, _, hrcp⟩
            · exact Or.inl (by rw [hwr, hs2])
            · exact Or.inr (by rw [hwr, hrcp])
          · intro hw
            rw [heapWrite_slots_pos _ ha]
            have hwts2 : wellTyped m := by
              rw [hmm, hslots2]; exact hw
            have hty0 : node.dataTy = ty.id := hwts2 _ (ResourceMap.lookup_mem hl)
            have hc := downcast_ref_ok hd
            intro p hp
            have hupd := wellTyped_updateNode (hc.2.1.trans hty0) hwts2
            exact hupd p hp

theorem handle_get_mut_checked_ok_frame {h h1 : ComponentStoreHandle}
    {s s1 : ComponentStore} {ty : Ty} {v : Nat}
    (hg : h.get_mut_checked s ty = .ok (some (v, h1, s1))) :
    s1.mapAddr = s.mapAddr ∧ s1.publicRef = s.publicRef ∧
      (∃ a, h1.cache = some a ∧
        (h.cache = some a ∨ (h.cache = none ∧ s.publicRef = some a))) ∧
      (s.publicRef = none → s1.rcCount = s.rcCount) ∧
      (s1.rcCount = s.rcCount ∨ s1.rcCount = s.rcCount + 1) ∧
      (wellTyped s.slots → wellTyped s1.slots) := by
  unfold ComponentStoreHandle.get_mut_checked at hg
  cases hm : h.get_map s with
  | error e => simp [hm] at hg
  | ok t =>
    obtain ⟨a, h2, s2⟩ := t
    simp only [hm] at hg
    obtain ⟨hcache2, hmap2, hslots2, hpub2, hcase⟩ := get_map_ok_shape hm
    cases hh : s2.heapAt a with
    | none => simp [hh] at hg
    | some m =>
      simp only [hh] at hg
      obtain ⟨ha, hmm⟩ := heapAt_some hh
      cases hl : m.lookup ty.id with
      | none => simp [hl] at hg
      | some node =>
        simp only [hl] at hg
        cases hd : node.downcast_mut_unchecked ty with
        | error e => simp [hd] at hg
        | ok r =>
          obtain ⟨v1, node1⟩ := r
          simp only [hd] at hg
          cases hg
          obtain ⟨hwm, hwr, hwp⟩ := heapWrite_fields s2 a (m.updateNode ty.id node1)
          refine ⟨hwm.trans hmap2, hwp.trans hpub2, ⟨a, hcache2, ?_⟩, ?_, ?_, ?_⟩
          · rcases hcase with ⟨hce, _⟩ | ⟨hce, hpr, _⟩
            · exact Or.inl hce
            · exact Or.inr ⟨hce, hpr⟩
          · intro hnone
            rcases hcase with ⟨_, hs2⟩ | ⟨_, hpr, _⟩
            · rw [hwr, hs2]
            · rw [hnone] at hpr; cases hpr
          · rcases hcase with ⟨_, hs2⟩ | ⟨_, _, hrcp⟩
            · exact Or.inl (by rw [hwr, hs2])
            · exact Or.inr (by rw [hwr, hrcp])
          · intro hw
            rw [heapWrite_slots_pos _ ha]
            have hwts2 : wellTyped m := by
              rw [hmm, hslots2]; exact hw
            have hty0 : node.dataTy = ty.id := hwts2 _ (ResourceMap.lookup_mem hl)
            have hc := downcast_mut_ok hd
            exact wellTyped_updateNode (hc.2.1.trans hty0) hwts2

theorem handle_get_ok_frame {h h1 : ComponentStoreHandle}
    {s s1 : ComponentStore} {ty : Ty} {v : Nat}
    (hg : h.get s ty = .ok (v, h1, s1)) :
    s1.mapAddr = s.mapAddr ∧ s1.publicRef = s.publicRef ∧
      (∃ a, h1.cache = some a ∧
        (h.cache = some a ∨ (h.cache = none ∧ s.publicRef = some a))) ∧
      (s.publicRef = none → s1.rcCount = s.rcCount) ∧
      (s1.rcCount = s.rcCount ∨ s1.rcCount = s.rcCount + 1) ∧
      (wellTyped s.slots → wellTyped s1.slots) := by
  unfold ComponentStoreHandle.get at hg
  cases hc : h.get_checked s ty with
  | error e => simp [hc] at hg
  | ok o =>
    cases o with
    | none => simp [hc] at hg
    | some r =>
      obtain ⟨v1, h2, s2⟩ := r
      rw [hc] at hg
      cases hg
      exact handle_get_checked_ok_frame hc

theorem mem_of_get?_eq_some {α : Type} {l : List α} {i : Nat} {a : α}
    (h : l.get? i = some a) : a ∈ l := by
  induction l generalizing i with
  | nil => simp [List.get?] at h
  | cons x xs ih =>
    cases i with
    | zero =>
      simp only [List.get?] at h
      cases h
      exact List.mem_cons_self _ _
    | succ j =>
      simp only [List.get?] at h
      exact List.mem_cons_of_mem _ (ih h)

theorem Inv_init : Inv TraceState.init := by
  refine ⟨Or.inl rfl, fun _ => rfl, ?_, ?_⟩
  · intro h hh
    simp [TraceState.init] at hh
  · intro p hp
    simp [TraceState.init, ComponentStore.new] at hp

theorem step_inv {st st1 : TraceState} {op : Op} (hInv : Inv st)
    (h : step st op = .ok st1) : Inv st1 := by
  obtain ⟨hpub, hrc, hhandles, hwt⟩ := hInv
  cases op with
  | insertOp ty v =>
    simp only [step] at h
    cases hins : st.store.insert ty v with
    | error e => rw [hins] at h; cases h
    | ok r =>
      obtain ⟨ch, s1⟩ := r
      rw [hins] at h
      cases h
      obtain ⟨hk, hrc1, hmap, hslots, hrccnt, hpub1, hch⟩ := insert_ok_shape hins
      refine ⟨?_, ?_, ?_, ?_⟩
      · show s1.publicRef = none ∨ s1.publicRef = some s1.mapAddr
        rw [hpub1, hmap]
        exact hpub
      · intro hn
        show s1.rcCount = 1
        rw [hrccnt]
        exact hrc (hpub1 ▸ hn)
      · intro h2 hh2
        rcases List.mem_append.mp hh2 with hmem | hmem
        · rcases hhandles h2 hmem with hc | ⟨hc, hp2⟩
          · exact Or.inl hc
          · exact Or.inr ⟨by rw [hmap]; exact hc, by rw [hpub1]; exact hp2⟩
        · simp at hmem
          exact Or.inl (by rw [hmem, hch])
      · show wellTyped s1.slots
        rw [hslots]
        exact wellTyped_insertNode rfl hwt
  | handleOp =>
    simp only [step] at h
    cases h
    refine ⟨hpub, hrc, ?_, hwt⟩
    intro h2 hh2
    rcases List.mem_append.mp hh2 with hmem | hmem
    · exact hhandles h2 hmem
    · simp at hmem
      exact Or.inl (by rw [hmem]; rfl)
  | handleForOp ty =>
    simp only [step] at h
    cases h
    refine ⟨hpub, hrc, ?_, hwt⟩
    intro h2 hh2
    rcases List.mem_append.mp hh2 with hmem | hmem
    · exact hhandles h2 hmem
    · simp at hmem
      exact Or.inl (by rw [hmem]; rfl)
  | cloneOp i =>
    simp only [step] at h
    cases hg : st.handles.get? i with
    | none => rw [hg] at h; cases h
    | some h0 =>
      simp only [hg] at h
      have hmem0 : h0 ∈ st.handles := mem_of_get?_eq_some hg
      cases hc : h0.cache with
      | some a =>
        simp only [ComponentStoreHandle.clone, hc] at h
        cases h
        rcases hhandles h0 hmem0 with hc0 | ⟨hc0, hp0⟩
        · rw [hc] at hc0; cases hc0
        · refine ⟨hpub, ?_, ?_, hwt⟩
          · intro hn
            exact absurd hn hp0
          · intro h2 hh2
            rcases List.mem_append.mp hh2 with hmem | hmem
            · exact hhandles h2 hmem
            · simp at hmem
              subst hmem
              exact Or.inr ⟨hc0, hp0⟩
      | none =>
        simp only [ComponentStoreHandle.clone, hc] at h
        cases h
        refine ⟨hpub, hrc, ?_, hwt⟩
        intro h2 hh2
        rcases List.mem_append.mp hh2 with hmem | hmem
        · exact hhandles h2 hmem
        · simp at hmem
          subst hmem
          exact Or.inl hc
  | finishOp =>
    simp only [step] at h
    cases h
    cases hp : st.store.publicRef with
    | some a =>
      have hfin : st.store.finish_initialization = st.store := by
        unfold ComponentStore.finish_initialization
        rw [hp]
      refine ⟨?_, ?_, ?_, ?_⟩
      · show st.store.finish_initialization.publicRef = none ∨ _
        rw [hfin]
        exact hpub
      · show _ → st.store.finish_initialization.rcCount = 1
        rw [hfin]
        exact hrc
      · intro h2 hh2
        rw [hfin]
        exact hhandles h2 hh2
      · show wellTyped st.store.finish_initialization.slots
        rw [hfin]
        exact hwt
    | none =>
      have hfin : st.store.finish_initialization.publicRef =
            some st.store.mapAddr ∧
          st.store.finish_initialization.mapAddr = st.store.mapAddr ∧
          st.store.finish_initialization.slots = st.store.slots := by
        simp [ComponentStore.finish_initialization, hp]
      refine ⟨?_, ?_, ?_, ?_⟩
      · show st.store.finish_initialization.publicRef = none ∨
          st.store.finish_initialization.publicRef =
            some st.store.finish_initialization.mapAddr
        rw [hfin.1, hfin.2.1]
        exact Or.inr rfl
      · intro hn
        rw [hfin.1] at hn
        cases hn
      · intro h2 hh2
        rcases hhandles h2 hh2 with hc | ⟨hc, hp2⟩
        · exact Or.inl hc
        · exact absurd hp hp2
      · show wellTyped st.store.finish_initialization.slots
        rw [hfin.2.2]
        exact hwt
  | getOp ty =>
    simp only [step] at h
    cases hget : st.store.get ty with
    | error e => rw [hget] at h; cases h
    | ok r =>
      obtain ⟨v, s1⟩ := r
      rw [hget] at h
      cases h
      obtain ⟨hf1, hf2, hf3, hf4⟩ := get_ok_frame hget
      obtain ⟨hd1, hd2, hd3, hd4⟩ := dropRefAt_frame s1 ty.id
      refine ⟨?_, ?_, ?_, ?_⟩
      · show (s1.dropRefAt ty.id).publicRef = none ∨
          (s1.dropRefAt ty.id).publicRef = some (s1.dropRefAt ty.id).mapAddr
        rw [hd3, hf3, hd1, hf1]
        exact hpub
      · intro hn
        rw [hd3, hf3] at hn
        show (s1.dropRefAt ty.id).rcCount = 1
        rw [hd2, hf2]
        exact hrc hn
      · intro h2 hh2
        rcases hhandles h2 hh2 with hc | ⟨hc, hp2⟩
        · exact Or.inl hc
        · exact Or.inr ⟨by rw [hd1, hf1]; exact hc, by rw [hd3, hf3]; exact hp2⟩
      · exact hd4 (hf4 hwt)
  | getMutOp ty =>
    simp only [step] at h
    cases hget : st.store.get_mut ty with
    | error e => rw [hget] at h; cases h
    | ok r =>
      obtain ⟨v, s1⟩ := r
      rw [hget] at h
      cases h
      obtain ⟨hf1, hf2, hf3, hf4⟩ := get_mut_ok_frame hget
      obtain ⟨hd1, hd2, hd3, hd4⟩ := dropRefMutAt_frame s1 ty.id
      refine ⟨?_, ?_, ?_, ?_⟩
      · show (s1.dropRefMutAt ty.id).publicRef = none ∨
          (s1.dropRefMutAt ty.id).publicRef = some (s1.dropRefMutAt ty.id).mapAddr
        rw [hd3, hf3, hd1, hf1]
        exact hpub
      · intro hn
        rw [hd3, hf3] at hn
        show (s1.dropRefMutAt ty.id).rcCount = 1
        rw [hd2, hf2]
        exact hrc hn
      · intro h2 hh2
        rcases hhandles h2 hh2 with hc | ⟨hc, hp2⟩
        · exact Or.inl hc
        · exact Or.inr ⟨by rw [hd1, hf1]; exact hc, by rw [hd3, hf3]; exact hp2⟩
      · exact hd4 (hf4 hwt)
  | handleGetOp i ty =>
    simp only [step] at h
    cases hg : st.handles.get? i with
    | none => rw [hg] at h; cases h
    | some h0 =>
      simp only [hg] at h
      have hmem0 : h0 ∈ st.handles := mem_of_get?_eq_some hg
      cases hget : h0.get st.store ty with
      | error e => rw [hget] at h; cases h
      | ok r =>
        obtain ⟨v, h1, s1⟩ := r
        rw [hget] at h
        cases h
        obtain ⟨hf1, hf2, ⟨a, hf3, hf3b⟩, hf4, hf6, hf5⟩ := handle_get_ok_frame hget
        obtain ⟨hd1, hd2, hd3, hd4⟩ := dropRefAt_frame s1 ty.id
        have hpubeq : (s1.dropRefAt ty.id).publicRef = st.store.publicRef := by
          rw [hd3, hf2]
        have hmapeq : (s1.dropRefAt ty.id).mapAddr = st.store.mapAddr := by
          rw [hd1, hf1]
        have hamap : a = st.store.mapAddr ∧ st.store.publicRef ≠ none := by
          rcases hf3b with hcs | ⟨hcn, hps⟩
          · rcases hhandles h0 hmem0 with hc0 | ⟨hc0, hp0⟩
            · rw [hcs] at hc0; cases hc0
            · rw [hcs] at hc0
              exact ⟨by injection hc0, hp0⟩
          · rcases hpub with hn | hs
            · rw [hn] at hps; cases hps
            · rw [hs] at hps
              exact ⟨by injection hps with he; exact he.symm, by rw [hs]; simp⟩
        refine ⟨?_, ?_, ?_, ?_⟩
        · rw [hpubeq, hmapeq]
          exact hpub
        · intro hn
          rw [hpubeq] at hn
          show (s1.dropRefAt ty.id).rcCount = 1
          rw [hd2, hf4 hn]
          exact hrc hn
        · intro h2 hh2
          rcases List.mem_or_eq_of_mem_set hh2 with hmem | hmem
          · rcases hhandles h2 hmem with hc | ⟨hc, hp2⟩
            · exact Or.inl hc
            · exact Or.inr ⟨by rw [hmapeq]; exact hc, by rw [hpubeq]; exact hp2⟩
          · subst hmem
            refine Or.inr ⟨?_, ?_⟩
            · rw [hf3, hmapeq, hamap.1]
            · rw [hpubeq]
              exact hamap.2
        · exact hd4 (hf5 hwt)

theorem runFrom_inv {ops : List Op} {st0 st : TraceState} (hInv : Inv st0)
    (h : runFrom st0 ops = .ok st) : Inv st := by
  induction ops generalizing st0 with
  | nil =>
    unfold runFrom at h
    cases h
    exact hInv
  | cons op rest ih =>
    unfold runFrom at h
    cases hs : step st0 op with
    | error e => rw [hs] at h; cases h
    | ok st1 =>
      rw [hs] at h
      exact ih (step_inv hInv hs) h

theorem run_inv {ops : List Op} {st : TraceState} (h : run ops = .ok st) :
    Inv st :=
  runFrom_inv Inv_init h

/-- Once `finish_initialization` has published the registry copy, the map
strong count of the map `Rc` never drops below 2 (the clone held by the
cell is never dropped). -/
def Inv2 (st : TraceState) : Prop :=
  st.store.publicRef ≠ none → 2 ≤ st.store.rcCount

theorem step_inv2 {st st1 : TraceState} {op : Op} (hInv : Inv st) (h2 : Inv2 st)
    (h : step st op = .ok st1) : Inv2 st1 := by
  obtain ⟨hpub, hrc, hhandles, hwt⟩ := hInv
  cases op with
  | insertOp ty v =>
    simp only [step] at h
    cases hins : st.store.insert ty v with
    | error e => rw [hins] at h; cases h
    | ok r =>
      obtain ⟨ch, s1⟩ := r
      rw [hins] at h
      cases h
      obtain ⟨hk, hrc1, hmap, hslots, hrccnt, hpub1, hch⟩ := insert_ok_shape hins
      intro hn
      show 2 ≤ s1.rcCount
      rw [hrccnt]
      exact h2 (by rw [hpub1] at hn; exact hn)
  | handleOp =>
    simp only [step] at h
    cases h
    exact h2
  | handleForOp ty =>
    simp only [step] at h
    cases h
    exact h2
  | cloneOp i =>
    simp only [step] at h
    cases hg : st.handles.get? i with
    | none => rw [hg] at h; cases h
    | some h0 =>
      simp only [hg] at h
      cases hc : h0.cache with
      | some a =>
        simp only [ComponentStoreHandle.clone, hc] at h
        cases h
        intro hn
        show 2 ≤ st.store.rcCount + 1
        have := h2 hn
        omega
      | none =>
        simp only [ComponentStoreHandle.clone, hc] at h
        cases h
        exact h2
  | finishOp =>
    simp only [step] at h
    cases h
    cases hp : st.store.publicRef with
    | some a =>
      have hfin : st.store.finish_initialization = st.store := by
        unfold ComponentStore.finish_initialization
        rw [hp]
      intro hn
      show 2 ≤ st.store.finish_initialization.rcCount
      rw [hfin] at hn ⊢
      exact h2 hn
    | none =>
      have hfin : st.store.finish_initialization.rcCount =
          st.store.rcCount + 1 := by
        simp [ComponentStore.finish_initialization, hp]
      intro hn
      show 2 ≤ st.store.finish_initialization.rcCount
      rw [hfin, hrc hp]
  | getOp ty =>
    simp only [step] at h
    cases hget : st.store.get ty with
    | error e => rw [hget] at h; cases h
    | ok r =>
      obtain ⟨v, s1⟩ := r
      rw [hget] at h
      cases h
      obtain ⟨hf1, hf2, hf3, hf4⟩ := get_ok_frame hget
      obtain ⟨hd1, hd2, hd3, hd4⟩ := dropRefAt_frame s1 ty.id
      intro hn
      show 2 ≤ (s1.dropRefAt ty.id).rcCount
      rw [hd3, hf3] at hn
      rw [hd2, hf2]
      exact h2 hn
  | getMutOp ty =>
    simp only [step] at h
    cases hget : st.store.get_mut ty with
    | error e => rw [hget] at h; cases h
    | ok r =>
      obtain ⟨v, s1⟩ := r
      rw [hget] at h
      cases h
      obtain ⟨hf1, hf2, hf3, hf4⟩ := get_mut_ok_frame hget
      obtain ⟨hd1, hd2, hd3, hd4⟩ := dropRefMutAt_frame s1 ty.id
      intro hn
      show 2 ≤ (s1.dropRefMutAt ty.id).rcCount
      rw [hd3, hf3] at hn
      rw [hd2, hf2]
      exact h2 hn
  | handleGetOp i ty =>
    simp only [step] at h
    cases hg : st.handles.get? i with
    | none => rw [hg] at h; cases h
    | some h0 =>
      simp only [hg] at h
      cases hget : h0.get st.store ty with
      | error e => rw [hget] at h; cases h
      | ok r =>
        obtain ⟨v, h1, s1⟩ := r
        rw [hget] at h
        cases h
        obtain ⟨hf1, hf2, ⟨a, hf3, hf3b⟩, hf4, hf6, hf5⟩ :=
          handle_get_ok_frame hget
        obtain ⟨hd1, hd2, hd3, hd4⟩ := dropRefAt_frame s1 ty.id
        intro hn
        show 2 ≤ (s1.dropRefAt ty.id).rcCount
        rw [hd3, hf2] at hn
        have hb := h2 hn
        rw [hd2]
        rcases hf6 with he | he <;> omega

theorem runFrom_inv2 {ops : List Op} {st0 st : TraceState} (h1 : Inv st0)
    (h2 : Inv2 st0) (h : runFrom st0 ops = .ok st) : Inv2 st := by
  induction ops generalizing st0 with
  | nil =>
    unfold runFrom at h
    cases h
    exact h2
  | cons op rest ih =>
    unfold runFrom at h
    cases hs : step st0 op with
    | error e => rw [hs] at h; cases h
    | ok st1 =>
      rw [hs] at h
      exact ih (step_inv h1 hs) (step_inv2 h1 h2 hs) h

theorem run_inv2 {ops : List Op} {st : TraceState} (h : run ops = .ok st) :
    Inv2 st :=
  runFrom_inv2 Inv_init (fun hn => absurd rfl hn) h

theorem finish_initialization_of_isSome {s : ComponentStore} {a : Nat}
    (h : s.publicRef = some a) : s.finish_initialization = s := by
  unfold ComponentStore.finish_initialization
  rw [h]

/-! ### Concrete fixtures used by witnesses and counterexamples -/

/-- A concrete model type `A` (type id 0). -/
def tyA : Ty := { id := 0, name := "A" }

/-- A concrete model type `B` (type id 1), distinct from `A`. -/
def tyB : Ty := { id := 1, name := "B" }

/-- A registry holding one slot of type `A` with payload 5, not yet shared. -/
def csA : ComponentStore :=
  { mapAddr := 0, slots := [(0, ResourceNode.new tyA 5)], rcCount := 1,
    publicRef := none }

/-- Fixture `csA` with the `A` slot exclusively borrowed. -/
def csA1 : ComponentStore :=
  { mapAddr := 0,
    slots :=
      [(0, { type_name := "A", dataTy := 0, data := 5, borrow := .writing })],
    rcCount := 1, publicRef := none }

/-- A registry holding slots of both `A` (payload 5) and `B` (payload 7):
two distinct types with the same in-memory representation. -/
def csAB : ComponentStore :=
  { mapAddr := 0,
    slots := [(0, ResourceNode.new tyA 5), (1, ResourceNode.new tyB 7)],
    rcCount := 1, publicRef := none }

/-- The trace state after `new(); insert::<A>(1); handle_for::<A>()`. -/
def stC1 : TraceState :=
  { store :=
      { mapAddr := 0, slots := [(0, ResourceNode.new tyA 1)], rcCount := 1,
        publicRef := none },
    handles := [{ cache := none }, { cache := none }] }

/-- The trace state after `new(); insert::<A>(1); handle()`. -/
def stC10 : TraceState :=
  { store :=
      { mapAddr := 0, slots := [(0, ResourceNode.new tyA 1)], rcCount := 1,
        publicRef := none },
    handles := [{ cache := none }, { cache := none }] }

/-! ### The claims -/

/-- C7: `finish_initialization` is idempotent — a second (or any later) call
does not panic (the model function is total), leaves the published
self-reference unchanged, and does not alter the slot map: the state after
two calls equals the state after one. -/
theorem C7_finish_idempotent (s : ComponentStore) :
    s.finish_initialization.finish_initialization = s.finish_initialization := by
  cases hp : s.publicRef with
  | some a =>
    have h1 := finish_initialization_of_isSome hp
    rw [h1, h1]
  | none =>
    have h1 : s.finish_initialization.publicRef = some s.mapAddr := by
      simp [ComponentStore.finish_initialization, hp]
    exact finish_initialization_of_isSome h1

/-- C3: inserting a type whose slot already exists panics with the duplicate
message regardless of the new value, while the first insert of a
not-yet-registered type on an exclusively-owned registry succeeds. -/
theorem C3_no_duplicate_registration (s : ComponentStore) (ty : Ty) (v : Nat)
    (hfresh : s.slots.containsKey ty.id = false) (hrc : s.rcCount = 1) :
    ∃ ch s1, s.insert ty v = .ok (ch, s1) ∧
      ∀ u : Nat, s1.insert ty u =
        .error ("Component of type " ++ ty.name ++ " already exists in State") := by
  have h1 : s.insert ty v =
      .ok ({ ty := ty, handle := { cache := none } },
        { s with slots := s.slots.insertNode ty.id (ResourceNode.new ty v) }) := by
    unfold ComponentStore.insert
    rw [if_neg (by simp [hfresh]), if_neg (not_not_intro hrc)]
    rfl
  refine ⟨_, _, h1, ?_⟩
  intro u
  unfold ComponentStore.insert
  rw [if_pos (by simp [ResourceMap.containsKey, ResourceMap.lookup,
    ResourceMap.insertNode])]

/-- C3 witness: on a fresh registry, `insert::<A>(5)` succeeds and every
further `insert::<A>(u)` fails with the duplicate-type message. -/
theorem C3_witness :
    (ComponentStore.new.slots.containsKey tyA.id = false ∧
      ComponentStore.new.rcCount = 1) ∧
    (∃ ch s1, ComponentStore.new.insert tyA 5 = .ok (ch, s1) ∧
      ∀ u : Nat, s1.insert tyA u =
        .error ("Component of type " ++ tyA.name ++ " already exists in State")) :=
  ⟨⟨rfl, rfl⟩, C3_no_duplicate_registration ComponentStore.new tyA 5 rfl rfl⟩

/-- C1 counterexample: the claim predicts that after a `handle_for` call,
`insert::<B>()` panics even though `B` was never inserted; in the code the
whole trace `insert::<A>(1); handle_for::<A>(); insert::<B>(2)` runs without
any panic. -/
theorem C1_counterexample :
    (run [Op.insertOp tyA 1, Op.handleForOp tyA, Op.insertOp tyB 2]).isOk
      = true := by
  rfl

/-- C1 (amended): creating handles does not freeze the registry — on any
reachable state on which `finish_initialization` has not yet been called
(regardless of how many handles were created), `insert::<V>()` for a
previously-unregistered `V` succeeds; only `finish_initialization` freezes
insertion. -/
theorem C1_amended_insert_after_handle (ops : List Op) (st : TraceState)
    (ty : Ty) (v : Nat) (hrun : run ops = .ok st)
    (hpub : st.store.publicRef = none)
    (hfresh : st.store.slots.containsKey ty.id = false) :
    (st.store.insert ty v).isOk = true := by
  obtain ⟨_, hrc, _, _⟩ := run_inv hrun
  unfold ComponentStore.insert
  rw [if_neg (by simp [hfresh]), if_neg (not_not_intro (hrc hpub))]
  rfl

/-- C1 witness: after `insert::<A>(1)` and `handle_for::<A>()` (no
`finish`), inserting the fresh type `B` succeeds. -/
theorem C1_amended_witness :
    run [Op.insertOp tyA 1, Op.handleForOp tyA] = .ok stC1 ∧
    stC1.store.publicRef = none ∧
    stC1.store.slots.containsKey tyB.id = false ∧
    (stC1.store.insert tyB 2).isOk = true :=
  ⟨rfl, rfl, rfl, C1_amended_insert_after_handle [Op.insertOp tyA 1, Op.handleForOp tyA]
      stC1 tyB 2 rfl rfl rfl⟩

/-- C10: on every reachable registry state, `insert::<T>()` for a
not-yet-registered `T` panics with the shared-state message exactly when
`finish_initialization` has already run; before `finish`, such an insert
always succeeds (handle creation alone never shares the slot map). -/
theorem C10_freeze_iff_finish (ops : List Op) (st : TraceState) (ty : Ty)
    (v : Nat) (hrun : run ops = .ok st)
    (hfresh : st.store.slots.containsKey ty.id = false) :
    ((st.store.insert ty v =
        .error "Cannot insert component into shared State") ↔
      st.store.publicRef ≠ none) ∧
    (st.store.publicRef = none → (st.store.insert ty v).isOk = true) := by
  obtain ⟨hpub, hrc, _, _⟩ := run_inv hrun
  have h2 := run_inv2 hrun
  constructor
  · constructor
    · intro herr hnone
      have hrc1 := hrc hnone
      unfold ComponentStore.insert at herr
      rw [if_neg (by simp [hfresh]), if_neg (not_not_intro hrc1)] at herr
      cases herr
    · intro hne
      have hge := h2 hne
      unfold ComponentStore.insert
      rw [if_neg (by simp [hfresh]), if_pos (by omega)]
  · intro hnone
    unfold ComponentStore.insert
    rw [if_neg (by simp [hfresh]), if_neg (not_not_intro (hrc hnone))]
    rfl

/-- C10 witness: after `insert::<A>(1); handle()`, inserting the fresh type
`B` still succeeds, and the shared-state panic is equivalent to `finish`
having run (here: it has not). -/
theorem C10_witness :
    run [Op.insertOp tyA 1, Op.handleOp] = .ok stC10 ∧
    stC10.store.slots.containsKey tyB.id = false ∧
    (((stC10.store.insert tyB 2 =
        .error "Cannot insert component into shared State") ↔
      stC10.store.publicRef ≠ none) ∧
    (stC10.store.publicRef = none →
      (stC10.store.insert tyB 2).isOk = true)) :=
  ⟨rfl, rfl, C10_freeze_iff_finish [Op.insertOp tyA 1, Op.handleOp] stC10 tyB 2 rfl
      rfl⟩

/-- C5: an unresolved indirect handle whose first resolution happens before
`finish_initialization` has run panics — through `get_map` and through each
of the four typed accessors — with the premature-use message. -/
theorem C5_premature_resolution (s : ComponentStore) (h : ComponentStoreHandle)
    (ty : Ty) (hcache : h.cache = none) (hpub : s.publicRef = none) :
    h.get_map s = .error "StateHandle used before State was fully initialized" ∧
    h.get_checked s ty =
      .error "StateHandle used before State was fully initialized" ∧
    h.get s ty = .error "StateHandle used before State was fully initialized" ∧
    h.get_mut_checked s ty =
      .error "StateHandle used before State was fully initialized" ∧
    h.get_mut s ty =
      .error "StateHandle used before State was fully initialized" := by
  have hmap : h.get_map s =
      .error "StateHandle used before State was fully initialized" := by
    unfold ComponentStoreHandle.get_map
    rw [hcache, hpub]
  have h1 : h.get_checked s ty =
      .error "StateHandle used before State was fully initialized" := by
    unfold ComponentStoreHandle.get_checked
    rw [hmap]
  have h3 : h.get_mut_checked s ty =
      .error "StateHandle used before State was fully initialized" := by
    unfold ComponentStoreHandle.get_mut_checked
    rw [hmap]
  have h2 : h.get s ty =
      .error "StateHandle used before State was fully initialized" := by
    unfold ComponentStoreHandle.get
    rw [h1]
  have h4 : h.get_mut s ty =
      .error "StateHandle used before State was fully initialized" := by
    unfold ComponentStoreHandle.get_mut
    rw [h3]
  exact ⟨hmap, h1, h2, h3, h4⟩

/-- C5 witness: a fresh handle on a fresh (unfinished) registry panics with
the premature-use message on resolution. -/
theorem C5_witness :
    (ComponentStoreHandle.new.cache = none ∧
      ComponentStore.new.publicRef = none) ∧
    (ComponentStoreHandle.new.get_map ComponentStore.new =
      .error "StateHandle used before State was fully initialized" ∧
    ComponentStoreHandle.new.get_checked ComponentStore.new tyA =
      .error "StateHandle used before State was fully initialized" ∧
    ComponentStoreHandle.new.get ComponentStore.new tyA =
      .error "StateHandle used before State was fully initialized" ∧
    ComponentStoreHandle.new.get_mut_checked ComponentStore.new tyA =
      .error "StateHandle used before State was fully initialized" ∧
    ComponentStoreHandle.new.get_mut ComponentStore.new tyA =
      .error "StateHandle used before State was fully initialized") :=
  ⟨⟨rfl, rfl⟩,
    C5_premature_resolution ComponentStore.new ComponentStoreHandle.new tyA
      rfl rfl⟩

/-- C2: while an exclusive borrow of `T` (obtained via `get_mut`) is live,
any further borrow of `T` — shared via `get` or exclusive via `get_mut` —
panics with the `RefCell` conflict message; once the exclusive guard is
dropped, both a shared and an exclusive borrow succeed again (sequential,
non-overlapping borrows all succeed). -/
theorem C2_exclusive_aliasing (s s1 : ComponentStore) (ty : Ty)
    (node : ResourceNode)
    (hl : s.slots.lookup ty.id = some node) (hty : node.dataTy = ty.id)
    (hfree : node.borrow = .free)
    (hs1 : s1 =
      { s with slots :=
          s.slots.updateNode ty.id { node with borrow := .writing } }) :
    s.get_mut ty = .ok (node.data, s1) ∧
    s1.get ty = .error "already mutably borrowed: BorrowError" ∧
    s1.get_mut ty = .error "already borrowed: BorrowMutError" ∧
    (∃ s2, (s1.dropRefMutAt ty.id).get ty = .ok (node.data, s2)) ∧
    (∃ s3, (s1.dropRefMutAt ty.id).get_mut ty = .ok (node.data, s3)) := by
  have hdc : node.downcast_mut_unchecked ty =
      .ok (node.data, { node with borrow := .writing }) := by
    unfold ResourceNode.downcast_mut_unchecked ResourceNode.tryBorrowMut
    rw [hfree]
    simp [hty]
  have hmut : s.get_mut ty = .ok (node.data, s1) := by
    unfold ComponentStore.get_mut ComponentStore.get_mut_checked
    simp only [hl, hdc]
    rw [hs1]
  have hl1 : s1.slots.lookup ty.id =
      some { node with borrow := BorrowState.writing } := by
    rw [hs1]
    exact lookup_updateNode_self hl
  have hdcr : ResourceNode.downcast_ref_unchecked
      { node with borrow := BorrowState.writing } ty =
      .error "already mutably borrowed: BorrowError" := by
    unfold ResourceNode.downcast_ref_unchecked ResourceNode.tryBorrow
    rfl
  have hdcm : ResourceNode.downcast_mut_unchecked
      { node with borrow := BorrowState.writing } ty =
      .error "already borrowed: BorrowMutError" := by
    unfold ResourceNode.downcast_mut_unchecked ResourceNode.tryBorrowMut
    rfl
  have h2 : s1.get ty = .error "already mutably borrowed: BorrowError" := by
    unfold ComponentStore.get ComponentStore.get_checked
    simp only [hl1, hdcr]
  have h3 : s1.get_mut ty = .error "already borrowed: BorrowMutError" := by
    unfold ComponentStore.get_mut ComponentStore.get_mut_checked
    simp only [hl1, hdcm]
  have hdropnode : ResourceNode.dropRefMut
      { node with borrow := BorrowState.writing } = node := by
    unfold ResourceNode.dropRefMut
    rw [← hfree]
  have hdrop : s1.dropRefMutAt ty.id =
      { s1 with slots := s1.slots.updateNode ty.id node } := by
    unfold ComponentStore.dropRefMutAt
    simp only [hl1, hdropnode]
  have hl2 : (s1.slots.updateNode ty.id node).lookup ty.id = some node :=
    lookup_updateNode_self hl1
  have hdc2 : node.downcast_ref_unchecked ty =
      .ok (node.data, { node with borrow := .reading 0 }) := by
    unfold ResourceNode.downcast_ref_unchecked ResourceNode.tryBorrow
    rw [hfree]
    simp [hty]
  refine ⟨hmut, h2, h3, ?_, ?_⟩
  · rw [hdrop]
    unfold ComponentStore.get ComponentStore.get_checked
    simp only [hl2, hdc2]
    exact ⟨_, rfl⟩
  · rw [hdrop]
    unfold ComponentStore.get_mut ComponentStore.get_mut_checked
    simp only [hl2, hdc]
    exact ⟨_, rfl⟩

/-- C2 witness: on a registry holding `A` with payload 5, `get_mut::<A>()`
succeeds, overlapping `get`/`get_mut` calls panic, and after dropping the
exclusive guard both succeed again. -/
theorem C2_witness :
    (csA.slots.lookup tyA.id = some (ResourceNode.new tyA 5) ∧
      (ResourceNode.new tyA 5).borrow = .free) ∧
    (csA.get_mut tyA = .ok ((ResourceNode.new tyA 5).data, csA1) ∧
     csA1.get tyA = .error "already mutably borrowed: BorrowError" ∧
     csA1.get_mut tyA = .error "already borrowed: BorrowMutError" ∧
     (∃ s2, (csA1.dropRefMutAt tyA.id).get tyA =
        .ok ((ResourceNode.new tyA 5).data, s2)) ∧
     (∃ s3, (csA1.dropRefMutAt tyA.id).get_mut tyA =
        .ok ((ResourceNode.new tyA 5).data, s3))) :=
  ⟨⟨rfl, rfl⟩,
    C2_exclusive_aliasing csA csA1 tyA (ResourceNode.new tyA 5) rfl rfl rfl
      (by decide)⟩

/-- A fresh (unresolved) handle, used against a registry on which
`finish_initialization` has just run, resolves to the own map address of
the registry, and its `get` returns the payload of the slot. -/
theorem new_handle_get_after_finish (s : ComponentStore) (ty : Ty)
    (node : ResourceNode) (hpub : s.publicRef = none)
    (hl : s.slots.lookup ty.id = some node) (hty : node.dataTy = ty.id)
    (hfree : node.borrow = .free) :
    (∃ h1 s1, ComponentStoreHandle.new.get_map s.finish_initialization =
      .ok (s.mapAddr, h1, s1)) ∧
    (∃ h2 s2, ComponentStoreHandle.new.get s.finish_initialization ty =
      .ok (node.data, h2, s2)) := by
  have hs1 : s.finish_initialization.publicRef = some s.mapAddr := by
    simp [ComponentStore.finish_initialization, hpub]
  have hs2 : s.finish_initialization.mapAddr = s.mapAddr := by
    simp [ComponentStore.finish_initialization, hpub]
  have hs3 : s.finish_initialization.slots = s.slots := by
    simp [ComponentStore.finish_initialization, hpub]
  have hgm : ∃ hh ss, ComponentStoreHandle.new.get_map s.finish_initialization =
      .ok (s.mapAddr, hh, ss) ∧ ss.mapAddr = s.mapAddr ∧ ss.slots = s.slots := by
    unfold ComponentStoreHandle.get_map
    simp only [ComponentStoreHandle.new, hs1]
    exact ⟨_, _, rfl, hs2, hs3⟩
  obtain ⟨hh, ss, hgm1, hssm, hsss⟩ := hgm
  have hheap : ss.heapAt s.mapAddr = some ss.slots := by
    unfold ComponentStore.heapAt
    rw [if_pos hssm.symm]
  have hlook : ss.slots.lookup ty.id = some node := by
    rw [hsss]
    exact hl
  have hdc : node.downcast_ref_unchecked ty =
      .ok (node.data, { node with borrow := .reading 0 }) := by
    unfold ResourceNode.downcast_ref_unchecked ResourceNode.tryBorrow
    rw [hfree]
    simp [hty]
  refine ⟨⟨_, _, hgm1⟩, ?_⟩
  unfold ComponentStoreHandle.get ComponentStoreHandle.get_checked
  simp only [hgm1, hheap, hlook, hdc]
  exact ⟨_, _, rfl⟩

/-- C6: an indirect handle captured before `finish_initialization` resolves,
after `finish_initialization`, to the very map address of the originating
registry, and its `get` returns the payload of the slot — the same value a
handle captured after `finish` (and resolved against the same registry)
returns. -/
theorem C6_deferred_resolution (s : ComponentStore) (ty : Ty)
    (node : ResourceNode) (hpub : s.publicRef = none)
    (hl : s.slots.lookup ty.id = some node) (hty : node.dataTy = ty.id)
    (hfree : node.borrow = .free) :
    (∃ h1 s1, (s.handle).get_map s.finish_initialization =
      .ok (s.mapAddr, h1, s1)) ∧
    (∃ h2 s2, (s.handle).get s.finish_initialization ty =
      .ok (node.data, h2, s2)) ∧
    (∃ h3 s3, (s.finish_initialization.handle).get_map s.finish_initialization =
      .ok (s.mapAddr, h3, s3)) ∧
    (∃ h4 s4, (s.finish_initialization.handle).get s.finish_initialization ty =
      .ok (node.data, h4, s4)) := by
  obtain ⟨hmap, hget⟩ :=
    new_handle_get_after_finish s ty node hpub hl hty hfree
  exact ⟨hmap, hget, hmap, hget⟩

/-- C6 witness: on a registry holding `A` with payload 5, a handle captured
before `finish` and one captured after both resolve to the map of the registry
and both `get::<A>()` calls return 5. -/
theorem C6_witness :
    (csA.publicRef = none ∧
      csA.slots.lookup tyA.id = some (ResourceNode.new tyA 5)) ∧
    ((∃ h1 s1, (csA.handle).get_map csA.finish_initialization =
      .ok (csA.mapAddr, h1, s1)) ∧
    (∃ h2 s2, (csA.handle).get csA.finish_initialization tyA =
      .ok ((ResourceNode.new tyA 5).data, h2, s2)) ∧
    (∃ h3 s3,
      (csA.finish_initialization.handle).get_map csA.finish_initialization =
      .ok (csA.mapAddr, h3, s3)) ∧
    (∃ h4 s4,
      (csA.finish_initialization.handle).get csA.finish_initialization tyA =
      .ok ((ResourceNode.new tyA 5).data, h4, s4))) :=
  ⟨⟨rfl, rfl⟩,
    C6_deferred_resolution csA tyA (ResourceNode.new tyA 5) rfl rfl rfl rfl⟩

/-- C9: distinct inserted types are isolated — `get::<T>()` returns the
payload of `T` (never that of `U`) even when both slots store values of the same
in-memory shape, and a mutation performed through `get_mut::<U>()` leaves
the value returned by a subsequent `get::<T>()` unchanged. -/
theorem C9_type_isolation (s : ComponentStore) (tyT tyU : Ty)
    (nT nU : ResourceNode) (w : Nat) (hne : tyT.id ≠ tyU.id)
    (hlT : s.slots.lookup tyT.id = some nT) (htyT : nT.dataTy = tyT.id)
    (hfT : nT.borrow = .free)
    (hlU : s.slots.lookup tyU.id = some nU) (htyU : nU.dataTy = tyU.id)
    (hfU : nU.borrow = .free) :
    (∃ s1, s.get tyT = .ok (nT.data, s1)) ∧
    (∃ s2, s.get tyU = .ok (nU.data, s2)) ∧
    (∃ s3, s.get_mut tyU = .ok (nU.data, s3) ∧
      ∃ s4, ((s3.writeThrough tyU.id w).dropRefMutAt tyU.id).get tyT =
        .ok (nT.data, s4)) := by
  have hdcT : nT.downcast_ref_unchecked tyT =
      .ok (nT.data, { nT with borrow := .reading 0 }) := by
    unfold ResourceNode.downcast_ref_unchecked ResourceNode.tryBorrow
    rw [hfT]
    simp [htyT]
  have hdcU : nU.downcast_ref_unchecked tyU =
      .ok (nU.data, { nU with borrow := .reading 0 }) := by
    unfold ResourceNode.downcast_ref_unchecked ResourceNode.tryBorrow
    rw [hfU]
    simp [htyU]
  have hdcUm : nU.downcast_mut_unchecked tyU =
      .ok (nU.data, { nU with borrow := .writing }) := by
    unfold ResourceNode.downcast_mut_unchecked ResourceNode.tryBorrowMut
    rw [hfU]
    simp [htyU]
  refine ⟨?_, ?_, ?_⟩
  · unfold ComponentStore.get ComponentStore.get_checked
    simp only [hlT, hdcT]
    exact ⟨_, rfl⟩
  · unfold ComponentStore.get ComponentStore.get_checked
    simp only [hlU, hdcU]
    exact ⟨_, rfl⟩
  · have hmu : s.get_mut tyU = .ok (nU.data,
        { s with slots :=
            s.slots.updateNode tyU.id { nU with borrow := .writing } }) := by
      unfold ComponentStore.get_mut ComponentStore.get_mut_checked
      simp only [hlU, hdcUm]
    have hl1 : (s.slots.updateNode tyU.id
        { nU with borrow := BorrowState.writing }).lookup tyU.id =
        some { nU with borrow := BorrowState.writing } :=
      lookup_updateNode_self hlU
    refine ⟨_, hmu, ?_⟩
    unfold ComponentStore.writeThrough
    simp only [hl1]
    unfold ComponentStore.dropRefMutAt
    simp only [lookup_updateNode_self hl1, ResourceNode.dropRefMut]
    unfold ComponentStore.get ComponentStore.get_checked
    simp only [lookup_updateNode_other hne, hlT, hdcT]
    exact ⟨_, rfl⟩

/-- C9 witness: with `A` (payload 5) and `B` (payload 7) inserted —
identical in-memory representation — `get::<A>()` returns 5, `get::<B>()`
returns 7, and after writing 9 through `get_mut::<B>()`, `get::<A>()` still
returns 5. -/
theorem C9_witness :
    (tyA.id ≠ tyB.id ∧
      csAB.slots.lookup tyA.id = some (ResourceNode.new tyA 5) ∧
      csAB.slots.lookup tyB.id = some (ResourceNode.new tyB 7)) ∧
    ((∃ s1, csAB.get tyA = .ok ((ResourceNode.new tyA 5).data, s1)) ∧
    (∃ s2, csAB.get tyB = .ok ((ResourceNode.new tyB 7).data, s2)) ∧
    (∃ s3, csAB.get_mut tyB = .ok ((ResourceNode.new tyB 7).data, s3) ∧
      ∃ s4, ((s3.writeThrough tyB.id 9).dropRefMutAt tyB.id).get tyA =
        .ok ((ResourceNode.new tyA 5).data, s4))) :=
  ⟨⟨by decide, rfl, rfl⟩,
    C9_type_isolation csAB tyA tyB (ResourceNode.new tyA 5)
      (ResourceNode.new tyB 7) 9 (by decide) rfl rfl rfl rfl rfl rfl⟩

/-- C4: when no slot for `T` exists — on the registry itself or through a
resolved handle — `get_checked`/`get_mut_checked` return `none` while
`get`/`get_mut` panic with a message naming `T`; when a slot exists, all
four return a borrow of the stored value. -/
theorem C4_checked_vs_panicking (s : ComponentStore) (h : ComponentStoreHandle)
    (ty : Ty) (hc : h.cache = some s.mapAddr) :
    (s.slots.lookup ty.id = none →
      s.get_checked ty = .ok none ∧
      s.get_mut_checked ty = .ok none ∧
      s.get ty =
        .error ("Component " ++ ty.name ++ " not found in ComponentDB") ∧
      s.get_mut ty =
        .error ("Component " ++ ty.name ++ " not found in ComponentDB") ∧
      h.get_checked s ty = .ok none ∧
      h.get_mut_checked s ty = .ok none ∧
      h.get s ty =
        .error ("Component " ++ ty.name ++ " not found in ComponentDB") ∧
      h.get_mut s ty =
        .error ("Component " ++ ty.name ++ " not found in ComponentDB")) ∧
    (∀ node, s.slots.lookup ty.id = some node → node.dataTy = ty.id →
      node.borrow = .free →
      (∃ s1, s.get ty = .ok (node.data, s1)) ∧
      (∃ s1, s.get_checked ty = .ok (some (node.data, s1))) ∧
      (∃ s1, s.get_mut ty = .ok (node.data, s1)) ∧
      (∃ s1, s.get_mut_checked ty = .ok (some (node.data, s1))) ∧
      (∃ h1 s1, h.get s ty = .ok (node.data, h1, s1)) ∧
      (∃ h1 s1, h.get_checked s ty = .ok (some (node.data, h1, s1))) ∧
      (∃ h1 s1, h.get_mut s ty = .ok (node.data, h1, s1)) ∧
      (∃ h1 s1, h.get_mut_checked s ty = .ok (some (node.data, h1, s1)))) := by
  have hgm : h.get_map s = .ok (s.mapAddr, h, s) := by
    unfold ComponentStoreHandle.get_map
    rw [hc]
  have hheap : s.heapAt s.mapAddr = some s.slots := by
    unfold ComponentStore.heapAt
    rw [if_pos rfl]
  constructor
  · intro hnone
    refine ⟨?_, ?_, ?_, ?_, ?_, ?_, ?_, ?_⟩
    · unfold ComponentStore.get_checked
      simp only [hnone]
    · unfold ComponentStore.get_mut_checked
      simp only [hnone]
    · unfold ComponentStore.get ComponentStore.get_checked
      simp only [hnone]
    · unfold ComponentStore.get_mut ComponentStore.get_mut_checked
      simp only [hnone]
    · unfold ComponentStoreHandle.get_checked
      simp only [hgm, hheap, hnone]
    · unfold ComponentStoreHandle.get_mut_checked
      simp only [hgm, hheap, hnone]
    · unfold ComponentStoreHandle.get ComponentStoreHandle.get_checked
      simp only [hgm, hheap, hnone]
    · unfold ComponentStoreHandle.get_mut ComponentStoreHandle.get_mut_checked
      simp only [hgm, hheap, hnone]
  · intro node hl hty hfree
    have hdc : node.downcast_ref_unchecked ty =
        .ok (node.data, { node with borrow := .reading 0 }) := by
      unfold ResourceNode.downcast_ref_unchecked ResourceNode.tryBorrow
      rw [hfree]
      simp [hty]
    have hdcm : node.downcast_mut_unchecked ty =
        .ok (node.data, { node with borrow := .writing }) := by
      unfold ResourceNode.downcast_mut_unchecked ResourceNode.tryBorrowMut
      rw [hfree]
      simp [hty]
    refine ⟨?_, ?_, ?_, ?_, ?_, ?_, ?_, ?_⟩
    · unfold ComponentStore.get ComponentStore.get_checked
      simp only [hl, hdc]
      exact ⟨_, rfl⟩
    · unfold ComponentStore.get_checked
      simp only [hl, hdc]
      exact ⟨_, rfl⟩
    · unfold ComponentStore.get_mut ComponentStore.get_mut_checked
      simp only [hl, hdcm]
      exact ⟨_, rfl⟩
    · unfold ComponentStore.get_mut_checked
      simp only [hl, hdcm]
      exact ⟨_, rfl⟩
    · unfold ComponentStoreHandle.get ComponentStoreHandle.get_checked
      simp only [hgm, hheap, hl, hdc]
      exact ⟨_, _, rfl⟩
    · unfold ComponentStoreHandle.get_checked
      simp only [hgm, hheap, hl, hdc]
      exact ⟨_, _, rfl⟩
    · unfold ComponentStoreHandle.get_mut ComponentStoreHandle.get_mut_checked
      simp only [hgm, hheap, hl, hdcm]
      exact ⟨_, _, rfl⟩
    · unfold ComponentStoreHandle.get_mut_checked
      simp only [hgm, hheap, hl, hdcm]
      exact ⟨_, _, rfl⟩

/-- C4 witness: on a registry holding only `A` (payload 5) and a resolved
handle, the accessors for the absent type `B` return `none` (checked) or the
panic message naming `B`, and the accessors for `A` return the payload. -/
theorem C4_witness :
    (csA.slots.lookup tyB.id = none ∧
     csA.get_checked tyB = .ok none ∧
     csA.get_mut_checked tyB = .ok none ∧
     csA.get tyB = .error "Component B not found in ComponentDB" ∧
     csA.get_mut tyB = .error "Component B not found in ComponentDB" ∧
     ComponentStoreHandle.get_checked { cache := some csA.mapAddr } csA tyB =
       .ok none ∧
     ComponentStoreHandle.get { cache := some csA.mapAddr } csA tyB =
       .error "Component B not found in ComponentDB") ∧
    ((∃ s1, csA.get tyA = .ok (5, s1)) ∧
     (∃ s1, csA.get_checked tyA = .ok (some (5, s1))) ∧
     (∃ s1, csA.get_mut tyA = .ok (5, s1)) ∧
     (∃ h1 s1, ComponentStoreHandle.get { cache := some csA.mapAddr } csA tyA =
       .ok (5, h1, s1))) := by
  have kB := C4_checked_vs_panicking csA { cache := some csA.mapAddr } tyB rfl
  have kA := C4_checked_vs_panicking csA { cache := some csA.mapAddr } tyA rfl
  have kBm := kB.1 rfl
  have kAp := kA.2 (ResourceNode.new tyA 5) rfl rfl rfl
  exact ⟨⟨rfl, kBm.1, kBm.2.1, kBm.2.2.1, kBm.2.2.2.1, kBm.2.2.2.2.1,
      kBm.2.2.2.2.2.2.1⟩,
    kAp.1, kAp.2.1, kAp.2.2.1, kAp.2.2.2.2.1⟩

/-- The registry produced by `new()` followed by `insert::<T>(v)`. -/
def insertedStore (ty : Ty) (v : Nat) : ComponentStore where
  mapAddr := 0
  slots := [(ty.id, ResourceNode.new ty v)]
  rcCount := 1
  publicRef := none

/-- State `insertedStore` while its single slot is exclusively borrowed. -/
def borrowedStore (ty : Ty) (v : Nat) : ComponentStore where
  mapAddr := 0
  slots :=
    ResourceMap.updateNode [(ty.id, ResourceNode.new ty v)] ty.id
      { ResourceNode.new ty v with borrow := .writing }
  rcCount := 1
  publicRef := none

/-- The node of type `T` carrying payload `w` while exclusively borrowed. -/
def wNode (ty : Ty) (w : Nat) : ResourceNode where
  type_name := ty.name
  dataTy := ty.id
  data := w
  borrow := .writing

/-- The node of type `T` carrying payload `w` with no live borrow. -/
def finalNode (ty : Ty) (w : Nat) : ResourceNode where
  type_name := ty.name
  dataTy := ty.id
  data := w
  borrow := .free

/-- State `borrowedStore` after writing `w` through the guard and dropping it. -/
def mutatedStore (ty : Ty) (v w : Nat) : ComponentStore where
  mapAddr := 0
  slots :=
    ResourceMap.updateNode
      (ResourceMap.updateNode
        (ResourceMap.updateNode [(ty.id, ResourceNode.new ty v)] ty.id
          { ResourceNode.new ty v with borrow := .writing })
        ty.id (wNode ty w))
      ty.id (finalNode ty w)
  rcCount := 1
  publicRef := none

/-- C8: insert a value, read it back, mutate it through `get_mut`, and the
new value is observed by a subsequent `get` on the registry and by a handle
that resolves to the registry after `finish_initialization`. -/
theorem C8_insert_get_mutate (ty : Ty) (v w : Nat) :
    ∃ ch s1, ComponentStore.new.insert ty v = .ok (ch, s1) ∧
      (∃ s2, s1.get ty = .ok (v, s2)) ∧
      (∃ s3, s1.get_mut ty = .ok (v, s3) ∧
        (∃ s5, ((s3.writeThrough ty.id w).dropRefMutAt ty.id).get ty =
          .ok (w, s5)) ∧
        (∃ h6 s6, ComponentStoreHandle.new.get
          ((s3.writeThrough ty.id w).dropRefMutAt ty.id).finish_initialization
          ty = .ok (w, h6, s6))) := by
  have hins : ComponentStore.new.insert ty v = .ok
      ({ ty := ty, handle := { cache := none } }, insertedStore ty v) := by
    unfold ComponentStore.insert
    rw [if_neg (by simp [ComponentStore.new, ResourceMap.containsKey,
        ResourceMap.lookup]),
      if_neg (by simp [ComponentStore.new])]
    rfl
  have hlk : (insertedStore ty v).slots.lookup ty.id =
      some (ResourceNode.new ty v) := by
    simp [insertedStore, ResourceMap.lookup]
  have hdc : (ResourceNode.new ty v).downcast_ref_unchecked ty =
      .ok (v, { ResourceNode.new ty v with borrow := .reading 0 }) := by
    unfold ResourceNode.downcast_ref_unchecked ResourceNode.tryBorrow
      ResourceNode.new
    simp
  have hdcm : (ResourceNode.new ty v).downcast_mut_unchecked ty =
      .ok (v, { ResourceNode.new ty v with borrow := .writing }) := by
    unfold ResourceNode.downcast_mut_unchecked ResourceNode.tryBorrowMut
      ResourceNode.new
    simp
  refine ⟨_, _, hins, ?_, ?_⟩
  · unfold ComponentStore.get ComponentStore.get_checked
    simp only [hlk, hdc]
    exact ⟨_, rfl⟩
  · have hl1 : (borrowedStore ty v).slots.lookup ty.id =
        some
          { type_name := ty.name, dataTy := ty.id, data := v,
            borrow := BorrowState.writing } :=
      lookup_updateNode_self hlk
    have hl2 : ((borrowedStore ty v).slots.updateNode ty.id
          { type_name := ty.name, dataTy := ty.id, data := w,
            borrow := BorrowState.writing }).lookup ty.id =
        some
          { type_name := ty.name, dataTy := ty.id, data := w,
            borrow := BorrowState.writing } :=
      lookup_updateNode_self hl1
    have hchain : ((borrowedStore ty v).writeThrough ty.id w).dropRefMutAt
        ty.id = mutatedStore ty v w := by
      unfold ComponentStore.writeThrough
      simp only [hl1]
      unfold ComponentStore.dropRefMutAt
      simp only [hl2, ResourceNode.dropRefMut]
      rfl
    have hlook3 : (mutatedStore ty v w).slots.lookup ty.id =
        some (finalNode ty w) :=
      lookup_updateNode_self hl2
    have hdcf : (finalNode ty w).downcast_ref_unchecked ty =
        .ok (w, { finalNode ty w with borrow := .reading 0 }) := by
      unfold ResourceNode.downcast_ref_unchecked ResourceNode.tryBorrow
        finalNode
      simp
    refine ⟨borrowedStore ty v, ?_, ?_, ?_⟩
    · unfold ComponentStore.get_mut ComponentStore.get_mut_checked
      simp only [hlk, hdcm]
      rfl
    · rw [hchain]
      unfold ComponentStore.get ComponentStore.get_checked
      simp only [hlook3, hdcf]
      exact ⟨_, rfl⟩
    · rw [hchain]
      exact (new_handle_get_after_finish (mutatedStore ty v w) ty
        (finalNode ty w) rfl hlook3 rfl rfl).2

end Quackcraft
